import Mathlib

/-!
Verification of the vibe-trade-api authentication and access-control layer.

The repository is a thin FastAPI service (src/auth.py, src/routes/strategies.py,
src/routes/threads.py, src/repositories.py). We embed the token verifier and the
route handlers as pure Lean functions. Effects are made explicit:

* the HTTP result of a handler is `Except HTTPError α` (an `HTTPException` raised
  in Python becomes `.error`);
* the Firebase Admin SDK (`auth.verify_id_token`) is an external backend and is
  passed in as an oracle `String → VerifyResult`;
* the module-level availability flag `FIREBASE_AVAILABLE` is passed in as a `Bool`;
* the strategy repository lives in the external `vibe-trade-mcp` package, so
  `get_by_id` / `get_by_thread_id` are passed in as functions, and
  `get_by_owner_id` is modelled from the spec (see its doc comment);
* Python truthiness on optional strings (`if not user_id`, `if strategy.owner_id`)
  is embedded by `truthy`, which is false exactly on `none` and `some ""`.

Pure response shaping that no verified property mentions is elided with a note at
the definition: `_build_strategy_dict` is a field-for-field projection of its
strategy, and the card enrichment (`_get_strategy_cards`) joins against the
external card repository without influencing any status code or ownership check.
-/

namespace VibeTrade

/-! ### Python string primitives

CPython string operations used by the source (`str.strip`, `str.split('.')`,
`<`/`>` comparison), implemented structurally over the character list of a
`String` so that every definition evaluates on concrete inputs. Python compares
strings lexicographically by code point, which is exactly the lexicographic
order on `String.data`. -/

/-- The whitespace characters stripped by `str.strip()` (ASCII subset; the
source only ever strips bearer-token strings). -/
def py_isspace (c : Char) : Bool :=
  c = ' ' ∨ c = '\t' ∨ c = '\n' ∨ c = '\r' ∨ c = '\x0b' ∨ c = '\x0c'

/-- `str.strip()`: remove leading and trailing whitespace. -/
def py_strip (s : String) : String :=
  ⟨((s.data.dropWhile py_isspace).reverse.dropWhile py_isspace).reverse⟩

/-- `str.split(sep)` for a single-character separator, on character lists:
`""` gives one (empty) part, and `n` separators give `n + 1` parts. -/
def split_char (sep : Char) : List Char → List (List Char)
  | [] => [[]]
  | c :: cs =>
    let rest := split_char sep cs
    if c = sep then [] :: rest
    else
      match rest with
      | r :: rs => (c :: r) :: rs
      | [] => [[c]]

/-- Lexicographic strict comparison of character lists by code point. -/
def lt_list : List Char → List Char → Bool
  | [], [] => false
  | [], _ :: _ => true
  | _ :: _, [] => false
  | a :: as, b :: bs => if a < b then true else if b < a then false else lt_list as bs

/-- Python's `<` on strings: lexicographic by code point. -/
def py_str_lt (a b : String) : Bool := lt_list a.data b.data

/-- An HTTP error as raised by `fastapi.HTTPException`: a status code and a detail
message. -/
structure HTTPError where
  status : Nat
  detail : String
deriving DecidableEq, Repr

/-- Status of a handler outcome: `some s` when the handler raised an
`HTTPException` with status `s`, `none` when it returned normally (HTTP 200). -/
def statusOf {α : Type} : Except HTTPError α → Option Nat
  | .error e => some e.status
  | .ok _ => none

/-- Python truthiness of an optional string: `None` and `""` are falsy, every
other string is truthy. Embeds `if strategy.owner_id:` and `if not user_id:`. -/
def truthy : Option String → Bool
  | none => false
  | some s => !(s == "")

/-- The decoded token payload returned by the verification backend
(`auth.verify_id_token`). We record the three fields the specification talks
about; absent dict keys are `none`. The code under `src/` reads only `uid`. -/
structure TokenPayload where
  sub : Option String
  uid : Option String
  user_id : Option String
deriving DecidableEq, Repr

/-- Outcome of the external verification backend: a decoded payload, or an
exception. Every exception branch of `get_user_id_optional`
(`ValueError`, Firebase errors, generic) re-raises as a 401 whose detail varies
with the message, so a single error constructor carrying the detail suffices. -/
inductive VerifyResult where
  | ok (payload : TokenPayload)
  | err (detail : String)
deriving DecidableEq, Repr

/-- `src/auth.py` `get_user_id_optional`: extract and validate the user id from a
bearer token, returning `none` when no credentials are supplied.

`firebase_available` is the module flag `FIREBASE_AVAILABLE` (conjoined in the
source with `auth`, which is non-`None` exactly when the flag is true);
`verify_id_token` is the Firebase backend; `credentials` is the bearer token
string when an `Authorization: Bearer` header is present. -/
def get_user_id_optional (firebase_available : Bool)
    (verify_id_token : String → VerifyResult)
    (credentials : Option String) : Except HTTPError (Option String) :=
  match credentials with
  | none => .ok none
  | some token =>
    if token == "" then
      .error ⟨401, "Missing authentication token"⟩
    -- Remove any whitespace (`token = token.strip()`), then basic validation:
    -- Firebase tokens are JWTs with 3 parts separated by dots
    else if (split_char '.' (py_strip token).data).length ≠ 3 then
      .error ⟨401, "Invalid token format: token must be a valid JWT"⟩
    else if !firebase_available then
      .error ⟨500, "Firebase authentication not available on server. Check server logs for details."⟩
    else
      match verify_id_token (py_strip token) with
      | .err detail => .error ⟨401, detail⟩
      | .ok decoded_token =>
        match decoded_token.uid with
        | some user_id =>
          if user_id == "" then
            .error ⟨401, "Firebase token missing user ID"⟩
          else
            .ok (some user_id)
        | none => .error ⟨401, "Firebase token missing user ID"⟩

/-- `src/auth.py` `get_user_id_required`: like the optional variant but raising
401 when the result is falsy (`None` or `""`; `if not user_id:`). -/
def get_user_id_required (firebase_available : Bool)
    (verify_id_token : String → VerifyResult)
    (credentials : Option String) : Except HTTPError String :=
  match get_user_id_optional firebase_available verify_id_token credentials with
  | .error e => .error e
  | .ok user_id =>
    if !truthy user_id then
      .error ⟨401, "Authentication required"⟩
    else
      .ok (user_id.getD "")

/-- The environment of the module-level Firebase initialization in `src/auth.py`
lines 16–37: whether `import firebase_admin` succeeds and whether
`firebase_admin.initialize_app()` succeeds. -/
structure FirebaseInitEnv where
  import_ok : Bool
  init_ok : Bool
deriving DecidableEq, Repr

/-- The module-level initialization of `src/auth.py` (lines 16–37), computing
`FIREBASE_AVAILABLE`. The result is `Except Unit Bool` so that a propagated
startup exception would be visible as `.error`: the `raise` after a failed
`initialize_app()` is caught by the outer `except Exception` (line 34), and an
`ImportError` by its own branch (line 30), both setting the flag to false, so no
exception ever escapes the module import. -/
def firebase_module_init (env : FirebaseInitEnv) : Except Unit Bool :=
  -- try:
  if env.import_ok then
    -- initialize_app(); on failure the inner `raise` is caught by the
    -- outer `except Exception`, which sets FIREBASE_AVAILABLE = False
    if env.init_ok then .ok true else .ok false
  else
    -- except ImportError: FIREBASE_AVAILABLE = False
    .ok false

/-- The strategy model fields read by the route handlers. The remaining fields
(`universe`, `attachments`, `version`) are copied verbatim into responses by
`_build_strategy_dict` and the card join, and no verified property mentions
them, so they are elided. -/
structure Strategy where
  id : String
  owner_id : Option String
  thread_id : Option String
  name : String
  status : String
  created_at : String
  updated_at : String
deriving DecidableEq, Repr

/-- `src/routes/strategies.py` `get_strategy_by_id` (lines 147–197): 404 when the
repository has no such strategy, then the inline ownership check, then the
response. The response body (`StrategyWithCardsResponse`: the strategy dict from
`_build_strategy_dict` plus the card join) is represented by the strategy
itself; no verified property reads the body. `get_by_id` is the external
`strategy_repository.get_by_id`. -/
def get_strategy_by_id (get_by_id : String → Option Strategy)
    (strategy_id : String) (user_id : Option String) : Except HTTPError Strategy :=
  match get_by_id strategy_id with
  | none => .error ⟨404, "Strategy not found: " ++ strategy_id⟩
  | some strategy =>
    -- Access control:
    -- - If strategy has no owner_id: anyone can access (unauthenticated OK)
    -- - If strategy has owner_id: only the owner can access
    if truthy strategy.owner_id then
      if !truthy user_id then
        .error ⟨401, "Authentication required: this strategy belongs to a user"⟩
      else if user_id ≠ strategy.owner_id then
        .error ⟨403, "Access denied: strategy belongs to another user"⟩
      else
        .ok strategy
    else
      .ok strategy

/-- `src/routes/strategies.py` `get_strategy_by_thread_id` (lines 83–144): same
shape as `get_strategy_by_id` but looked up through
`strategy_repository.get_by_thread_id`. -/
def get_strategy_by_thread_id (get_by_thread_id : String → Option Strategy)
    (thread_id : String) (user_id : Option String) : Except HTTPError Strategy :=
  match get_by_thread_id thread_id with
  | none => .error ⟨404, "No strategy found for thread_id: " ++ thread_id⟩
  | some strategy =>
    if truthy strategy.owner_id then
      if !truthy user_id then
        .error ⟨401, "Authentication required: this strategy belongs to a user"⟩
      else if user_id ≠ strategy.owner_id then
        .error ⟨403, "Access denied: strategy belongs to another user"⟩
      else
        .ok strategy
    else
      .ok strategy

/-- The thread dict built by `src/routes/threads.py` (the literal appearing
twice in `get_threads`, and the `ThreadResponse` of `get_thread`). In the
Pydantic model the strategy-derived fields are optional; the handlers always
fill them from a strategy, so they are plain strings here. -/
structure ThreadResponse where
  thread_id : String
  strategy_id : String
  strategy_name : String
  strategy_status : String
  created_at : String
  updated_at : String
deriving DecidableEq, Repr

/-- The thread dict `{thread_id, strategy_id: strategy.id, strategy_name:
strategy.name, strategy_status: strategy.status, created_at, updated_at}` of
`src/routes/threads.py`. -/
def thread_info (tid : String) (strategy : Strategy) : ThreadResponse :=
  ⟨tid, strategy.id, strategy.name, strategy.status,
    strategy.created_at, strategy.updated_at⟩

/-- `src/routes/threads.py` `get_thread` (lines 98–161): look the strategy up by
thread id, 404 when absent, then the same inline ownership check, then the
`ThreadResponse`. -/
def get_thread (get_by_thread_id : String → Option Strategy)
    (thread_id : String) (user_id : Option String) : Except HTTPError ThreadResponse :=
  match get_by_thread_id thread_id with
  | none => .error ⟨404, "Thread not found: " ++ thread_id⟩
  | some strategy =>
    if truthy strategy.owner_id then
      if !truthy user_id then
        .error ⟨401, "Authentication required: this thread belongs to a user"⟩
      else if user_id ≠ strategy.owner_id then
        .error ⟨403, "Access denied: thread belongs to another user"⟩
      else
        .ok (thread_info thread_id strategy)
    else
      .ok (thread_info thread_id strategy)

/-- Modelled from the spec: `strategy_repository.get_by_owner_id` is implemented
in the external `vibe-trade-mcp` package, absent from this repository. Spec §6
lists it among the repository interface — "`get_by_owner_id(owner)` … each
returns a resource with at least `{id, owner_id (optional), ...}`" — i.e. the
stored resources whose `owner_id` equals the given owner. We model the store as
a list of strategies and the query as the corresponding filter. -/
def get_by_owner_id (store : List Strategy) (owner : String) : List Strategy :=
  store.filter (fun s => s.owner_id == some owner)

/-- `src/routes/strategies.py` `get_strategies` (lines 55–80): the strategies of
the authenticated user. `_build_strategy_dict` maps each strategy to a dict of
its fields verbatim and is elided. -/
def get_strategies (store : List Strategy) (user_id : String) : List Strategy :=
  get_by_owner_id store user_id

/-- One iteration of the `for strategy in strategies` loop of `get_threads`
(`src/routes/threads.py` lines 54–80) over the insertion-ordered
`thread_map : dict[str, dict]`, modelled as an association list. A falsy
`thread_id` is skipped; an existing key is overwritten in place only when the
new `updated_at` is strictly greater; a new key is appended. -/
def thread_step (m : List (String × ThreadResponse)) (strategy : Strategy) :
    List (String × ThreadResponse) :=
  match strategy.thread_id with
  | none => m
  | some tid =>
    if tid == "" then m
    else
      match m.find? (fun p => p.1 == tid) with
      | some existing =>
        -- keep the one with the latest updated_at (strict comparison)
        if py_str_lt existing.2.updated_at strategy.updated_at then
          m.map (fun p => if p.1 == tid then (tid, thread_info tid strategy) else p)
        else m
      | none => m ++ [(tid, thread_info tid strategy)]

/-- The `thread_map` built by `get_threads` from the user's strategies. -/
def build_thread_map (strategies : List Strategy) : List (String × ThreadResponse) :=
  strategies.foldl thread_step []

/-- Stable insertion of a thread dict into a list kept in descending
`updated_at` order: the element goes before the first entry whose key is not
greater than its own, so equal keys keep their original relative order, as
Python's stable `list.sort(key=..., reverse=True)` does. -/
def insert_desc (x : ThreadResponse) : List ThreadResponse → List ThreadResponse
  | [] => [x]
  | y :: ys =>
    if py_str_lt x.updated_at y.updated_at then y :: insert_desc x ys
    else x :: y :: ys

/-- `threads.sort(key=lambda x: x.get("updated_at", ""), reverse=True)` of
`src/routes/threads.py` line 84: a stable sort by `updated_at`, most recent
first (every entry carries its `updated_at`, so the `""` default is never
used). -/
def sort_by_updated_desc : List ThreadResponse → List ThreadResponse
  | [] => []
  | x :: xs => insert_desc x (sort_by_updated_desc xs)

/-- `src/routes/threads.py` `get_threads` (lines 28–95): the deduplicated,
sorted thread list of the authenticated user (`ThreadResponse(**thread)` is a
field-for-field copy of each dict). -/
def get_threads (store : List Strategy) (user_id : String) : List ThreadResponse :=
  let strategies := get_by_owner_id store user_id
  let thread_map := build_thread_map strategies
  sort_by_updated_desc (thread_map.map (fun p => p.2))

/-- The FastAPI wiring of `get_strategy_by_id`: the `Depends(get_user_id)`
dependency runs first and its `HTTPException` short-circuits the handler. -/
def get_strategy_by_id_endpoint (get_by_id : String → Option Strategy)
    (firebase_available : Bool) (verify_id_token : String → VerifyResult)
    (credentials : Option String) (strategy_id : String) :
    Except HTTPError Strategy :=
  match get_user_id_optional firebase_available verify_id_token credentials with
  | .error e => .error e
  | .ok user_id => get_strategy_by_id get_by_id strategy_id user_id

/-- The FastAPI wiring of `get_strategy_by_thread_id` (optional auth). -/
def get_strategy_by_thread_id_endpoint (get_by_thread_id : String → Option Strategy)
    (firebase_available : Bool) (verify_id_token : String → VerifyResult)
    (credentials : Option String) (thread_id : String) :
    Except HTTPError Strategy :=
  match get_user_id_optional firebase_available verify_id_token credentials with
  | .error e => .error e
  | .ok user_id => get_strategy_by_thread_id get_by_thread_id thread_id user_id

/-- The FastAPI wiring of `get_thread` (optional auth). -/
def get_thread_endpoint (get_by_thread_id : String → Option Strategy)
    (firebase_available : Bool) (verify_id_token : String → VerifyResult)
    (credentials : Option String) (thread_id : String) :
    Except HTTPError ThreadResponse :=
  match get_user_id_optional firebase_available verify_id_token credentials with
  | .error e => .error e
  | .ok user_id => get_thread get_by_thread_id thread_id user_id

/-- The FastAPI wiring of `get_strategies` (required auth:
`Depends(get_user_id_required)`). -/
def get_strategies_endpoint (store : List Strategy)
    (firebase_available : Bool) (verify_id_token : String → VerifyResult)
    (credentials : Option String) : Except HTTPError (List Strategy) :=
  match get_user_id_required firebase_available verify_id_token credentials with
  | .error e => .error e
  | .ok user_id => .ok (get_strategies store user_id)

/-- The FastAPI wiring of `get_threads` (required auth). -/
def get_threads_endpoint (store : List Strategy)
    (firebase_available : Bool) (verify_id_token : String → VerifyResult)
    (credentials : Option String) : Except HTTPError (List ThreadResponse) :=
  match get_user_id_required firebase_available verify_id_token credentials with
  | .error e => .error e
  | .ok user_id => .ok (get_threads store user_id)

/-! ### Statements of the specified policies

The following definitions transcribe policies as the specification words them,
to be compared with the code. They are not translations of the source. -/

/-- The by-id access policy exactly as the specification states it, keyed on
presence: owner absent → allow (`none`); owner present, caller absent → deny
401; owner present, caller present and different → deny 403; equal → allow. -/
def claim_policy_by_presence (owner caller : Option String) : Option Nat :=
  match owner with
  | none => none
  | some o =>
    match caller with
    | none => some 401
    | some c => if c = o then none else some 403

/-- The access policy the code actually implements, with the empty string
treated as absence on both sides: owner absent or empty → allow; owner
non-empty and caller absent or empty → deny 401; owner non-empty, caller
non-empty and different → deny 403; equal → allow. -/
def guard_policy (owner caller : Option String) : Option Nat :=
  match owner with
  | none => none
  | some o =>
    if o = "" then none
    else
      match caller with
      | none => some 401
      | some c => if c = "" then some 401 else if c = o then none else some 403

/-- The identity-extraction rule exactly as the specification states it: the
subject claim, then the provider UID field, then the nested `user.id` field, in
that precedence order; `none` when none of the three is present. -/
def claim_extract_identity (p : TokenPayload) : Option String :=
  match p.sub with
  | some s => some s
  | none =>
    match p.uid with
    | some u => some u
    | none => p.user_id

/-- The extraction rule the code actually implements: only the `uid` field of
the payload is consulted, and a missing or empty `uid` is a 401. -/
def extract_uid_only (p : TokenPayload) : Except HTTPError (Option String) :=
  match p.uid with
  | some u => if u = "" then .error ⟨401, "Firebase token missing user ID"⟩ else .ok (some u)
  | none => .error ⟨401, "Firebase token missing user ID"⟩

/-- The strict verifier as the specification words it: a wrapper that turns an
absent identity into a 401 and passes everything else through. -/
def verify_required_of (r : Except HTTPError (Option String)) : Except HTTPError String :=
  match r with
  | .error e => .error e
  | .ok none => .error ⟨401, "Authentication required"⟩
  | .ok (some u) => .ok u

/-! ### Concrete instances used by the witnesses -/

/-- A verification backend whose every token decodes to uid `u1`. -/
def demo_verify : String → VerifyResult := fun _ => .ok ⟨none, some "u1", none⟩

/-- A strategy whose `owner_id` is present but empty. -/
def demo_unclaimed : Strategy := ⟨"s1", some "", none, "n", "active", "t0", "t1"⟩

/-- A strategy owned by `u1` on thread `t1`. -/
def demo_owned : Strategy := ⟨"s1", some "u1", some "t1", "n", "active", "t0", "t1"⟩

/-- A repository holding exactly `demo_unclaimed` under every id. -/
def demo_repo_unclaimed : String → Option Strategy := fun _ => some demo_unclaimed

/-- A repository holding exactly `demo_owned` under every id. -/
def demo_repo_owned : String → Option Strategy := fun _ => some demo_owned

/-- An empty repository. -/
def demo_repo_empty : String → Option Strategy := fun _ => none

/-- Two strategies of user `u1` sharing thread `t1` (distinct `updated_at`), one
without a thread, one on thread `t2`, and one of another user. -/
def demo_store : List Strategy :=
  [⟨"a", some "u1", some "t1", "A", "active", "c1", "2024-01-01"⟩,
   ⟨"b", some "u1", some "t1", "B", "active", "c2", "2024-02-01"⟩,
   ⟨"c", some "u1", none, "C", "active", "c3", "2024-03-01"⟩,
   ⟨"d", some "u1", some "t2", "D", "active", "c4", "2024-01-15"⟩,
   ⟨"e", some "u2", some "t3", "E", "active", "c5", "2024-04-01"⟩]

/-! ### Order lemmas for the lexicographic comparison -/

theorem lt_list_irrefl : ∀ a : List Char, lt_list a a = false
  | [] => rfl
  | c :: cs => by
    simp only [lt_list, if_neg (lt_irrefl c)]
    exact lt_list_irrefl cs

theorem lt_list_asymm : ∀ a b : List Char, lt_list a b = true → lt_list b a = false
  | [], [] => by simp [lt_list]
  | [], _ :: _ => fun _ => rfl
  | _ :: _, [] => by simp [lt_list]
  | a :: as, b :: bs => by
    simp only [lt_list]
    by_cases h1 : a < b
    · simp [h1, lt_asymm h1]
    · by_cases h2 : b < a
      · simp [h1, h2]
      · simp [h1, h2]
        exact lt_list_asymm as bs

theorem lt_list_trans :
    ∀ a b c : List Char, lt_list a b = true → lt_list b c = true → lt_list a c = true
  | [], [], _ => by simp [lt_list]
  | [], _ :: _, [] => by simp [lt_list]
  | [], _ :: _, _ :: _ => fun _ _ => rfl
  | _ :: _, [], _ => by simp [lt_list]
  | _ :: _, _ :: _, [] => by simp [lt_list]
  | a :: as, b :: bs, c :: cs => by
    simp only [lt_list]
    intro h1 h2
    by_cases hab : a < b
    · by_cases hbc : b < c
      · simp [lt_trans hab hbc]
      · by_cases hcb : c < b
        · simp [hbc, hcb] at h2
        · have hbceq : b = c := le_antisymm (not_lt.1 hcb) (not_lt.1 hbc)
          subst hbceq
          simp [hab]
    · by_cases hba : b < a
      · simp [hab, hba] at h1
      · have habeq : a = b := le_antisymm (not_lt.1 hba) (not_lt.1 hab)
        subst habeq
        simp [hab] at h1
        by_cases hac : a < c
        · simp [hac]
        · by_cases hca : c < a
          · simp [hac, hca] at h2
          · simp [hac, hca] at h2 ⊢
            exact lt_list_trans as bs cs h1 h2

theorem lt_list_conn :
    ∀ a b : List Char, lt_list a b = false → lt_list b a = false → a = b
  | [], [] => fun _ _ => rfl
  | [], _ :: _ => by simp [lt_list]
  | _ :: _, [] => by simp [lt_list]
  | a :: as, b :: bs => by
    simp only [lt_list]
    intro h1 h2
    by_cases hab : a < b
    · simp [hab] at h1
    · by_cases hba : b < a
      · simp [hba] at h2
      · have habeq : a = b := le_antisymm (not_lt.1 hba) (not_lt.1 hab)
        subst habeq
        simp [hab] at h1 h2
        rw [lt_list_conn as bs h1 h2]

theorem lt_list_false_trans {a b c : List Char}
    (h1 : lt_list a b = false) (h2 : lt_list b c = false) : lt_list a c = false := by
  by_contra h
  have hac : lt_list a c = true := by
    cases hval : lt_list a c
    · exact absurd hval h
    · rfl
  by_cases hcb : lt_list c b = true
  · have := lt_list_trans a c b hac hcb
    rw [this] at h1
    cases h1
  · have hcb' : lt_list c b = false := by
      cases hval : lt_list c b
      · rfl
      · exact absurd hval hcb
    have hbceq : b = c := lt_list_conn b c h2 hcb'
    subst hbceq
    rw [hac] at h1
    cases h1

/-! ### Sorting lemmas -/

theorem insert_desc_perm (x : ThreadResponse) :
    ∀ l : List ThreadResponse, (insert_desc x l).Perm (x :: l)
  | [] => List.Perm.refl _
  | y :: ys => by
    simp only [insert_desc]
    split
    · exact ((insert_desc_perm x ys).cons y).trans (List.Perm.swap x y ys)
    · exact List.Perm.refl _

theorem sort_by_updated_desc_perm :
    ∀ l : List ThreadResponse, (sort_by_updated_desc l).Perm l
  | [] => List.Perm.refl _
  | x :: xs =>
    (insert_desc_perm x (sort_by_updated_desc xs)).trans
      ((sort_by_updated_desc_perm xs).cons x)

theorem insert_desc_sorted (x : ThreadResponse) :
    ∀ l : List ThreadResponse,
      l.Pairwise (fun a b => py_str_lt a.updated_at b.updated_at = false) →
      (insert_desc x l).Pairwise (fun a b => py_str_lt a.updated_at b.updated_at = false)
  | [], _ => by simp [insert_desc]
  | y :: ys, h => by
    rcases List.pairwise_cons.1 h with ⟨hy, hys⟩
    simp only [insert_desc]
    split
    next hlt =>
      refine List.pairwise_cons.2 ⟨?_, insert_desc_sorted x ys hys⟩
      intro z hz
      rcases List.mem_cons.1 ((insert_desc_perm x ys).mem_iff.1 hz) with rfl | hz
      · exact lt_list_asymm _ _ hlt
      · exact hy z hz
    next hge =>
      have hxy : py_str_lt x.updated_at y.updated_at = false := by
        cases hval : py_str_lt x.updated_at y.updated_at
        · rfl
        · exact absurd hval hge
      refine List.pairwise_cons.2 ⟨?_, h⟩
      intro z hz
      rcases List.mem_cons.1 hz with rfl | hz
      · exact hxy
      · exact lt_list_false_trans hxy (hy z hz)

theorem sort_by_updated_desc_sorted :
    ∀ l : List ThreadResponse,
      (sort_by_updated_desc l).Pairwise
        (fun a b => py_str_lt a.updated_at b.updated_at = false)
  | [] => List.Pairwise.nil
  | x :: xs => insert_desc_sorted x _ (sort_by_updated_desc_sorted xs)

/-! ### Invariants of the thread map -/

theorem mem_thread_step {m : List (String × ThreadResponse)} {s : Strategy}
    {p : String × ThreadResponse} (hp : p ∈ thread_step m s) :
    p ∈ m ∨ ∃ tid, s.thread_id = some tid ∧ tid ≠ "" ∧ p = (tid, thread_info tid s) := by
  unfold thread_step at hp
  split at hp
  · exact Or.inl hp
  next tid heq =>
    split at hp
    · exact Or.inl hp
    next hne =>
      have hne' : tid ≠ "" := by simpa using hne
      split at hp
      next existing hfind =>
        split at hp
        · rcases List.mem_map.1 hp with ⟨q, hq, hfq⟩
          by_cases hqt : q.1 == tid
          · right
            exact ⟨tid, heq, hne', by rw [← hfq]; simp [hqt]⟩
          · left
            rw [← hfq]
            simpa [hqt] using hq
        · exact Or.inl hp
      next hfind =>
        rcases List.mem_append.1 hp with h | h
        · exact Or.inl h
        · right
          exact ⟨tid, heq, hne', by simpa using h⟩

theorem mem_foldl_thread_step :
    ∀ (l : List Strategy) (m : List (String × ThreadResponse))
      (p : String × ThreadResponse),
      p ∈ List.foldl thread_step m l →
      p ∈ m ∨ ∃ s ∈ l, s.thread_id = some p.1 ∧ p.1 ≠ "" ∧ p.2 = thread_info p.1 s
  | [], _, _, hp => Or.inl hp
  | s :: l, m, p, hp => by
    rcases mem_foldl_thread_step l (thread_step m s) p hp with h | ⟨t, ht, h1, h2, h3⟩
    · rcases mem_thread_step h with h | ⟨tid, h1, h2, h3⟩
      · exact Or.inl h
      · right
        subst h3
        exact ⟨s, List.mem_cons_self s l, h1, h2, rfl⟩
    · exact Or.inr ⟨t, List.mem_cons_of_mem s ht, h1, h2, h3⟩

theorem nodup_keys_thread_step {m : List (String × ThreadResponse)} (s : Strategy)
    (h : (m.map Prod.fst).Nodup) : ((thread_step m s).map Prod.fst).Nodup := by
  unfold thread_step
  split
  · exact h
  next tid heq =>
    split
    · exact h
    next hne =>
      split
      next existing hfind =>
        split
        · have hkeys :
              (m.map (fun p => if p.1 == tid then (tid, thread_info tid s) else p)).map
                  Prod.fst =
                m.map Prod.fst := by
            rw [List.map_map]
            apply List.map_congr_left
            intro q _
            by_cases hqt : q.1 == tid
            · simp only [Function.comp_apply, if_pos hqt]
              exact (eq_of_beq hqt).symm
            · have hqt' : q.1 ≠ tid := by simpa using hqt
              simp [Function.comp_apply, hqt']
          rw [hkeys]
          exact h
        · exact h
      next hfind =>
        rw [List.map_append]
        refine List.Nodup.append h (List.nodup_singleton tid) ?_
        intro k hk hk'
        have hkt : k = tid := by simpa using hk'
        subst hkt
        rcases List.mem_map.1 hk with ⟨q, hq, hq1⟩
        have := List.find?_eq_none.1 hfind q hq
        simp [hq1] at this

theorem nodup_keys_build (strategies : List Strategy) :
    ((build_thread_map strategies).map Prod.fst).Nodup := by
  unfold build_thread_map
  suffices h : ∀ (l : List Strategy) (m : List (String × ThreadResponse)),
      (m.map Prod.fst).Nodup → ((List.foldl thread_step m l).map Prod.fst).Nodup by
    exact h strategies [] List.nodup_nil
  intro l
  induction l with
  | nil => exact fun m hm => hm
  | cons s l ih => exact fun m hm => ih (thread_step m s) (nodup_keys_thread_step s hm)

theorem find?_key_replace (tid : String) (v : ThreadResponse) (k : String) :
    ∀ m : List (String × ThreadResponse),
      (m.map (fun p => if p.1 == tid then (tid, v) else p)).find? (fun p => p.1 == k) =
        Option.map (fun p => if p.1 == tid then (tid, v) else p)
          (m.find? (fun p => p.1 == k))
  | [] => rfl
  | q :: m => by
    have hpred :
        (((if q.1 == tid then (tid, v) else q) : String × ThreadResponse).1 == k) =
          (q.1 == k) := by
      by_cases hqt : (q.1 == tid) = true
      · rw [if_pos hqt, eq_of_beq hqt]
      · rw [if_neg hqt]
    cases hqk : (q.1 == k) with
    | true =>
      simp only [List.map_cons, List.find?_cons, hpred, hqk, Option.map_some']
    | false =>
      simp only [List.map_cons, List.find?_cons, hpred, hqk]
      exact find?_key_replace tid v k m

theorem thread_step_find_growth {m : List (String × ThreadResponse)} (s : Strategy)
    {k : String} {e : String × ThreadResponse}
    (h : m.find? (fun p => p.1 == k) = some e) :
    ∃ e', (thread_step m s).find? (fun p => p.1 == k) = some e' ∧
      py_str_lt e'.2.updated_at e.2.updated_at = false := by
  unfold thread_step
  split
  · exact ⟨e, h, lt_list_irrefl _⟩
  next tid heq =>
    split
    · exact ⟨e, h, lt_list_irrefl _⟩
    next hne =>
      split
      next existing hfind =>
        split
        next hlt =>
          rw [find?_key_replace tid (thread_info tid s) k, h]
          by_cases het : (e.1 == tid) = true
          · have h1 : (e.1 == k) = true :=
              List.find?_some (p := fun q : String × ThreadResponse => q.1 == k) h
            have hkt : k = tid := by rw [← eq_of_beq h1, eq_of_beq het]
            subst hkt
            have hee : e = existing := by
              rw [h] at hfind
              exact Option.some.inj hfind
            refine ⟨(k, thread_info k s), by rw [Option.map_some', if_pos het], ?_⟩
            rw [hee]
            exact lt_list_asymm _ _ hlt
          · exact ⟨e, by rw [Option.map_some', if_neg het], lt_list_irrefl _⟩
        next hge =>
          exact ⟨e, h, lt_list_irrefl _⟩
      next hfind =>
        refine ⟨e, ?_, lt_list_irrefl _⟩
        rw [List.find?_append, h]
        rfl

theorem thread_step_find_self {m : List (String × ThreadResponse)} {s : Strategy}
    {tid : String} (heq : s.thread_id = some tid) (hne : (tid == "") = false) :
    ∃ e', (thread_step m s).find? (fun p => p.1 == tid) = some e' ∧
      py_str_lt e'.2.updated_at s.updated_at = false := by
  have hstep : thread_step m s =
      match m.find? (fun p => p.1 == tid) with
      | some existing =>
        if py_str_lt existing.2.updated_at s.updated_at then
          m.map (fun p => if p.1 == tid then (tid, thread_info tid s) else p)
        else m
      | none => m ++ [(tid, thread_info tid s)] := by
    unfold thread_step
    rw [heq]
    simp [hne]
  rw [hstep]
  split
  next existing hfind =>
    split
    next hlt =>
      rw [find?_key_replace tid (thread_info tid s) tid, hfind, Option.map_some',
        if_pos (List.find?_some (p := fun q : String × ThreadResponse => q.1 == tid) hfind)]
      exact ⟨(tid, thread_info tid s), rfl, lt_list_irrefl _⟩
    next hge =>
      refine ⟨existing, hfind, ?_⟩
      cases hval : py_str_lt existing.2.updated_at s.updated_at
      · rfl
      · exact absurd hval hge
  next hfind =>
    refine ⟨(tid, thread_info tid s), ?_, lt_list_irrefl _⟩
    rw [List.find?_append, hfind]
    simp [List.find?]

theorem foldl_find_growth :
    ∀ (l : List Strategy) (m : List (String × ThreadResponse)) {k : String}
      {e : String × ThreadResponse},
      m.find? (fun p => p.1 == k) = some e →
      ∃ e', (List.foldl thread_step m l).find? (fun p => p.1 == k) = some e' ∧
        py_str_lt e'.2.updated_at e.2.updated_at = false
  | [], _, _, _, h => ⟨_, h, lt_list_irrefl _⟩
  | s :: l, m, k, e, h => by
    rcases thread_step_find_growth s h with ⟨e1, h1, hge1⟩
    rcases foldl_find_growth l (thread_step m s) h1 with ⟨e2, h2, hge2⟩
    exact ⟨e2, h2, lt_list_false_trans hge2 hge1⟩

theorem foldl_find_max :
    ∀ (l : List Strategy) (m : List (String × ThreadResponse)) {k : String}
      {e : String × ThreadResponse},
      (List.foldl thread_step m l).find? (fun p => p.1 == k) = some e →
      ∀ s ∈ l, s.thread_id = some k → (k == "") = false →
        py_str_lt e.2.updated_at s.updated_at = false
  | [], _, _, _, _, s, hs, _, _ => absurd hs (List.not_mem_nil s)
  | s0 :: l, m, k, e, hfind, s, hs, heq, hne => by
    rw [List.foldl_cons] at hfind
    rcases List.mem_cons.1 hs with rfl | hs'
    · rcases thread_step_find_self (m := m) heq hne with ⟨e1, h1, hge1⟩
      rcases foldl_find_growth l (thread_step m s) h1 with ⟨e2, h2, hge2⟩
      rw [h2] at hfind
      rw [← Option.some.inj hfind]
      exact lt_list_false_trans hge2 hge1
    · exact foldl_find_max l (thread_step m s0) hfind s hs' heq hne

theorem find?_of_mem_nodup :
    ∀ {m : List (String × ThreadResponse)}, (m.map Prod.fst).Nodup →
      ∀ {p : String × ThreadResponse}, p ∈ m → m.find? (fun q => q.1 == p.1) = some p
  | [], _, p, hp => absurd hp (List.not_mem_nil p)
  | q :: m, h, p, hp => by
    have hterm : q.1 ∉ m.map Prod.fst ∧ (m.map Prod.fst).Nodup := by
      simpa [List.nodup_cons] using h
    rcases List.mem_cons.1 hp with rfl | hp'
    · exact List.find?_cons_of_pos (p := fun r : String × ThreadResponse => r.1 == p.1)
        (a := p) m (by simp)
    · have hne : ¬(q.1 == p.1) = true := by
        intro hbeq
        refine hterm.1 ?_
        rw [eq_of_beq hbeq]
        exact List.mem_map_of_mem Prod.fst hp'
      rw [List.find?_cons_of_neg (p := fun r => r.1 == p.1) m hne]
      exact find?_of_mem_nodup hterm.2 hp'

theorem get_threads_unfold (store : List Strategy) (uid : String) :
    get_threads store uid =
      sort_by_updated_desc
        ((build_thread_map (get_by_owner_id store uid)).map (fun p => p.2)) := rfl

theorem get_threads_mem {store : List Strategy} {uid : String} {e : ThreadResponse}
    (he : e ∈ get_threads store uid) :
    ∃ s ∈ get_by_owner_id store uid,
      s.thread_id = some e.thread_id ∧ e.thread_id ≠ "" ∧ e = thread_info e.thread_id s := by
  rw [get_threads_unfold] at he
  have he' : e ∈ (build_thread_map (get_by_owner_id store uid)).map (fun p => p.2) :=
    (sort_by_updated_desc_perm _).mem_iff.1 he
  rcases List.mem_map.1 he' with ⟨p, hp, hsnd⟩
  rcases mem_foldl_thread_step _ [] p hp with hnil | ⟨s, hs, h1, h2, h3⟩
  · exact absurd hnil (List.not_mem_nil p)
  · subst hsnd
    have hkey : p.2.thread_id = p.1 := by rw [h3]; rfl
    refine ⟨s, hs, ?_, ?_, ?_⟩ <;> rw [hkey]
    · exact h1
    · exact h2
    · exact h3

theorem get_threads_nodup (store : List Strategy) (uid : String) :
    ((get_threads store uid).map (fun e => e.thread_id)).Nodup := by
  have hkeys :
      ((build_thread_map (get_by_owner_id store uid)).map (fun p => p.2)).map
          (fun e => e.thread_id) =
        (build_thread_map (get_by_owner_id store uid)).map Prod.fst := by
    rw [List.map_map]
    apply List.map_congr_left
    intro p hp
    rcases mem_foldl_thread_step _ [] p hp with hnil | ⟨s, _, _, _, h3⟩
    · exact absurd hnil (List.not_mem_nil p)
    · show p.2.thread_id = p.1
      rw [h3]
      rfl
  have hperm :
      ((get_threads store uid).map (fun e => e.thread_id)).Perm
        (((build_thread_map (get_by_owner_id store uid)).map (fun p => p.2)).map
          (fun e => e.thread_id)) := by
    rw [get_threads_unfold]
    exact (sort_by_updated_desc_perm _).map _
  rw [hkeys] at hperm
  exact hperm.nodup_iff.2 (nodup_keys_build _)

theorem get_threads_max {store : List Strategy} {uid : String} {e : ThreadResponse}
    (he : e ∈ get_threads store uid) :
    ∀ s ∈ get_by_owner_id store uid, s.thread_id = some e.thread_id →
      py_str_lt e.updated_at s.updated_at = false := by
  intro s hs heq
  rw [get_threads_unfold] at he
  have he' : e ∈ (build_thread_map (get_by_owner_id store uid)).map (fun p => p.2) :=
    (sort_by_updated_desc_perm _).mem_iff.1 he
  rcases List.mem_map.1 he' with ⟨p, hp, hsnd⟩
  rcases mem_foldl_thread_step _ [] p hp with hnil | ⟨s', _, _, h2, h3⟩
  · exact absurd hnil (List.not_mem_nil p)
  · have hkey : e.thread_id = p.1 := by rw [← hsnd, h3]; rfl
    have hfind := find?_of_mem_nodup (nodup_keys_build (get_by_owner_id store uid)) hp
    have hmax := foldl_find_max (get_by_owner_id store uid) [] hfind s hs
      (by rw [← hkey]; exact heq) (by simpa using h2)
    rw [← hsnd]
    exact hmax

theorem get_threads_sorted (store : List Strategy) (uid : String) :
    (get_threads store uid).Pairwise
      (fun a b => py_str_lt a.updated_at b.updated_at = false) := by
  rw [get_threads_unfold]
  exact sort_by_updated_desc_sorted _

/-! ### Lemmas about the token verifier -/

theorem get_user_id_optional_ne_empty (fb : Bool) (v : String → VerifyResult)
    (c : Option String) : get_user_id_optional fb v c ≠ .ok (some "") := by
  intro h
  unfold get_user_id_optional at h
  repeat' split at h
  all_goals simp_all

/-! ### The decision made by each read handler on a found resource -/

theorem guard_status_by_id (g : String → Option Strategy) (sid : String)
    (s : Strategy) (caller : Option String) (hlook : g sid = some s) :
    statusOf (get_strategy_by_id g sid caller) = guard_policy s.owner_id caller := by
  unfold get_strategy_by_id
  rw [hlook]
  rcases hso : s.owner_id with _ | o
  · simp [hso, truthy, guard_policy, statusOf]
  · by_cases ho : o = ""
    · subst ho
      simp [hso, truthy, guard_policy, statusOf]
    · rcases caller with _ | c
      · simp [hso, truthy, guard_policy, statusOf, ho]
      · by_cases hce : c = ""
        · subst hce
          simp [hso, truthy, guard_policy, statusOf, ho]
        · by_cases hco : c = o
          · subst hco
            simp [hso, truthy, guard_policy, statusOf, ho, hce]
          · simp [hso, truthy, guard_policy, statusOf, ho, hce, hco]

theorem guard_status_by_tid (gt : String → Option Strategy) (tid : String)
    (s : Strategy) (caller : Option String) (hlook : gt tid = some s) :
    statusOf (get_strategy_by_thread_id gt tid caller) = guard_policy s.owner_id caller := by
  unfold get_strategy_by_thread_id
  rw [hlook]
  rcases hso : s.owner_id with _ | o
  · simp [hso, truthy, guard_policy, statusOf]
  · by_cases ho : o = ""
    · subst ho
      simp [hso, truthy, guard_policy, statusOf]
    · rcases caller with _ | c
      · simp [hso, truthy, guard_policy, statusOf, ho]
      · by_cases hce : c = ""
        · subst hce
          simp [hso, truthy, guard_policy, statusOf, ho]
        · by_cases hco : c = o
          · subst hco
            simp [hso, truthy, guard_policy, statusOf, ho, hce]
          · simp [hso, truthy, guard_policy, statusOf, ho, hce, hco]

theorem guard_status_thread (gt : String → Option Strategy) (tid : String)
    (s : Strategy) (caller : Option String) (hlook : gt tid = some s) :
    statusOf (get_thread gt tid caller) = guard_policy s.owner_id caller := by
  unfold get_thread
  rw [hlook]
  rcases hso : s.owner_id with _ | o
  · simp [hso, truthy, guard_policy, statusOf]
  · by_cases ho : o = ""
    · subst ho
      simp [hso, truthy, guard_policy, statusOf]
    · rcases caller with _ | c
      · simp [hso, truthy, guard_policy, statusOf, ho]
      · by_cases hce : c = ""
        · subst hce
          simp [hso, truthy, guard_policy, statusOf, ho]
        · by_cases hco : c = o
          · subst hco
            simp [hso, truthy, guard_policy, statusOf, ho, hce]
          · simp [hso, truthy, guard_policy, statusOf, ho, hce, hco]

/-! ### Claims -/

/-- C1 (counterexample): the claimed presence-keyed policy predicts a 401 for an
anonymous read of a resource whose `owner_id` is present but empty, yet every
read handler allows that request: `if strategy.owner_id:` is Python truthiness,
so an empty owner skips the ownership check entirely. -/
theorem C1_counterexample :
    claim_policy_by_presence (some "") none = some 401 ∧
    statusOf (get_strategy_by_id demo_repo_unclaimed "s1" none) = none :=
  ⟨rfl, rfl⟩

/-- C1 (amended): for every resource found by a by-id, by-thread-id, or thread
read, the access decision is exactly: owner absent or empty → allow; owner
non-empty and caller absent or empty → 401; owner non-empty, caller non-empty
and different → 403; caller equal to owner → allow. -/
theorem C1_read_access_policy :
    ∀ (g gt : String → Option Strategy) (sid tid : String) (s : Strategy)
      (caller : Option String),
      (g sid = some s →
        statusOf (get_strategy_by_id g sid caller) = guard_policy s.owner_id caller) ∧
      (gt tid = some s →
        statusOf (get_strategy_by_thread_id gt tid caller) =
          guard_policy s.owner_id caller) ∧
      (gt tid = some s →
        statusOf (get_thread gt tid caller) = guard_policy s.owner_id caller) :=
  fun g gt sid tid s caller =>
    ⟨guard_status_by_id g sid s caller,
     guard_status_by_tid gt tid s caller,
     guard_status_thread gt tid s caller⟩

/-- C1 (witness): on a strategy owned by `u1`, caller `u2` gets the policy
outcome 403 and an anonymous caller the policy outcome 401. -/
theorem C1_read_access_policy_witness :
    statusOf (get_strategy_by_id demo_repo_owned "s1" (some "u2")) =
      guard_policy (some "u1") (some "u2") ∧
    statusOf (get_thread demo_repo_owned "t1" none) = guard_policy (some "u1") none :=
  ⟨(C1_read_access_policy demo_repo_owned demo_repo_owned "s1" "t1" demo_owned
      (some "u2")).1 rfl,
   (C1_read_access_policy demo_repo_owned demo_repo_owned "s1" "t1" demo_owned
      none).2.2 rfl⟩

/-- C9: a found resource whose `owner_id` is the empty string is treated as
unowned — every read endpoint allows any caller, anonymous or not, including a
caller whose identity is itself the empty string — and an empty-string caller
identity behaves exactly like an absent one on every read endpoint. -/
theorem C9_empty_string_unowned :
    ∀ (g gt : String → Option Strategy) (sid tid : String) (s : Strategy)
      (caller : Option String),
      (g sid = some s → s.owner_id = some "" →
        get_strategy_by_id g sid caller = .ok s) ∧
      (gt tid = some s → s.owner_id = some "" →
        get_strategy_by_thread_id gt tid caller = .ok s) ∧
      (gt tid = some s → s.owner_id = some "" →
        get_thread gt tid caller = .ok (thread_info tid s)) ∧
      get_strategy_by_id g sid (some "") = get_strategy_by_id g sid none ∧
      get_strategy_by_thread_id gt tid (some "") =
        get_strategy_by_thread_id gt tid none ∧
      get_thread gt tid (some "") = get_thread gt tid none := by
  intro g gt sid tid s caller
  refine ⟨?_, ?_, ?_, ?_, ?_, ?_⟩
  · intro hl ho
    unfold get_strategy_by_id
    rw [hl]
    simp [ho, truthy]
  · intro hl ho
    unfold get_strategy_by_thread_id
    rw [hl]
    simp [ho, truthy]
  · intro hl ho
    unfold get_thread
    rw [hl]
    simp [ho, truthy]
  · unfold get_strategy_by_id
    cases g sid with
    | none => rfl
    | some t =>
      cases hto : truthy t.owner_id <;> simp [hto, truthy]
  · unfold get_strategy_by_thread_id
    cases gt tid with
    | none => rfl
    | some t =>
      cases hto : truthy t.owner_id <;> simp [hto, truthy]
  · unfold get_thread
    cases gt tid with
    | none => rfl
    | some t =>
      cases hto : truthy t.owner_id <;> simp [hto, truthy]

/-- C9 (witness): the empty-owner strategy is readable anonymously and by the
empty-string caller, and on an owned strategy the empty-string caller gets the
same outcome as an anonymous one. -/
theorem C9_empty_string_unowned_witness :
    get_strategy_by_id demo_repo_unclaimed "s1" (some "") = .ok demo_unclaimed ∧
    get_thread demo_repo_unclaimed "t9" none = .ok (thread_info "t9" demo_unclaimed) ∧
    get_strategy_by_id demo_repo_owned "s1" (some "") =
      get_strategy_by_id demo_repo_owned "s1" none :=
  ⟨(C9_empty_string_unowned demo_repo_unclaimed demo_repo_unclaimed "s1" "t9"
      demo_unclaimed (some "")).1 rfl rfl,
   (C9_empty_string_unowned demo_repo_unclaimed demo_repo_unclaimed "s1" "t9"
      demo_unclaimed none).2.2.1 rfl rfl,
   (C9_empty_string_unowned demo_repo_owned demo_repo_owned "s1" "t9"
      demo_owned (some "")).2.2.2.1⟩

/-- C8: when the repository returns no resource, each of the three read
handlers fails with 404 for every caller — anonymous, empty, owner or
non-owner alike — before any ownership check can run. -/
theorem C8_not_found_404 :
    ∀ (g gt : String → Option Strategy) (sid tid : String) (caller : Option String),
      (g sid = none →
        get_strategy_by_id g sid caller =
          .error ⟨404, "Strategy not found: " ++ sid⟩) ∧
      (gt tid = none →
        get_strategy_by_thread_id gt tid caller =
          .error ⟨404, "No strategy found for thread_id: " ++ tid⟩) ∧
      (gt tid = none →
        get_thread gt tid caller = .error ⟨404, "Thread not found: " ++ tid⟩) := by
  intro g gt sid tid caller
  refine ⟨?_, ?_, ?_⟩
  · intro h
    unfold get_strategy_by_id
    rw [h]
  · intro h
    unfold get_strategy_by_thread_id
    rw [h]
  · intro h
    unfold get_thread
    rw [h]

/-- C8 (witness): an authenticated non-owner read of a missing strategy is a
404. -/
theorem C8_not_found_404_witness :
    get_strategy_by_id demo_repo_empty "s1" (some "u1") =
      .error ⟨404, "Strategy not found: " ++ "s1"⟩ :=
  (C8_not_found_404 demo_repo_empty demo_repo_empty "s1" "t1" (some "u1")).1 rfl

/-- C5: with no bearer credentials, the optional verifier returns an absent
identity and never an error, and every optional-auth endpoint then runs its
handler with the anonymous identity. -/
theorem C5_no_credentials_anonymous :
    ∀ (fb : Bool) (v : String → VerifyResult) (g gt : String → Option Strategy)
      (sid tid : String),
      get_user_id_optional fb v none = .ok none ∧
      get_strategy_by_id_endpoint g fb v none sid = get_strategy_by_id g sid none ∧
      get_strategy_by_thread_id_endpoint gt fb v none tid =
        get_strategy_by_thread_id gt tid none ∧
      get_thread_endpoint gt fb v none tid = get_thread gt tid none :=
  fun _ _ _ _ _ _ => ⟨rfl, rfl, rfl, rfl⟩

/-- C6: a supplied token is trimmed and must split into exactly 3 dot-separated
segments; otherwise the result is a 401 regardless of backend availability, and
a well-formed token with the backend unavailable is a 500 — so the format check
precedes the backend-availability check. -/
theorem C6_format_before_backend :
    (∀ (fb : Bool) (v : String → VerifyResult) (token : String),
        (split_char '.' (py_strip token).data).length ≠ 3 →
        statusOf (get_user_id_optional fb v (some token)) = some 401) ∧
    (∀ (v : String → VerifyResult) (token : String),
        (split_char '.' (py_strip token).data).length = 3 →
        statusOf (get_user_id_optional false v (some token)) = some 500) := by
  constructor
  · intro fb v token h
    cases he : (token == "")
    · simp [get_user_id_optional, he, h, statusOf]
    · simp [get_user_id_optional, he, statusOf]
  · intro v token h
    have htok : (token == "") = false := by
      cases he : (token == "")
      · rfl
      · exfalso
        rw [eq_of_beq he] at h
        exact absurd h (by decide)
    simp [get_user_id_optional, htok, h, statusOf]

/-- C6 (witness): with the backend unavailable, the 1-segment token `ab` is a
401 while the 3-segment token `a.b.c` is a 500. -/
theorem C6_format_before_backend_witness :
    statusOf (get_user_id_optional false demo_verify (some "ab")) = some 401 ∧
    statusOf (get_user_id_optional false demo_verify (some "a.b.c")) = some 500 :=
  ⟨C6_format_before_backend.1 false demo_verify "ab" (by decide),
   C6_format_before_backend.2 demo_verify "a.b.c" (by decide)⟩

/-- C2 (counterexample): the claimed sub → uid → user.id precedence predicts
identity `u1` for a payload carrying only `sub = u1`, but the code consults
only `uid` and rejects that verified token with a 401. -/
theorem C2_counterexample :
    claim_extract_identity ⟨some "u1", none, none⟩ = some "u1" ∧
    get_user_id_optional true (fun _ => .ok ⟨some "u1", none, none⟩) (some "a.b.c") =
      .error ⟨401, "Firebase token missing user ID"⟩ :=
  ⟨rfl, rfl⟩

/-- C2 (amended): for every token that verifies successfully, the caller
identity is extracted solely from the `uid` field of the payload — a missing or
empty `uid` is a 401 — and the `sub` and nested `user.id` fields are never
consulted. -/
theorem C2_uid_only_extraction :
    ∀ (p : TokenPayload) (token : String),
      (token == "") = false →
      (split_char '.' (py_strip token).data).length = 3 →
      get_user_id_optional true (fun _ => .ok p) (some token) = extract_uid_only p := by
  intro p token htok hlen
  rcases hud : p.uid with _ | u
  · simp [get_user_id_optional, extract_uid_only, htok, hlen, hud]
  · by_cases hue : u = ""
    · subst hue
      simp [get_user_id_optional, extract_uid_only, htok, hlen, hud]
    · simp [get_user_id_optional, extract_uid_only, htok, hlen, hud, hue]

/-- C2 (witness): a payload whose only identity field is `uid = u1` yields
exactly what the uid-only extraction rule prescribes. -/
theorem C2_uid_only_extraction_witness :
    get_user_id_optional true (fun _ => .ok ⟨none, some "u1", none⟩) (some "a.b.c") =
      extract_uid_only ⟨none, some "u1", none⟩ :=
  C2_uid_only_extraction ⟨none, some "u1", none⟩ "a.b.c" (by decide) (by decide)

/-- C3 (counterexample): with the Firebase Admin SDK missing, module
initialization still succeeds (no startup-fatal error: the exception is caught
and the availability flag set to false), and the failure instead surfaces
per-request: a request with a well-formed token gets a 500. -/
theorem C3_counterexample :
    firebase_module_init ⟨false, false⟩ = .ok false ∧
    statusOf (get_user_id_optional false demo_verify (some "h.p.s")) = some 500 :=
  ⟨rfl, rfl⟩

/-- C3 (amended): a missing or failed Firebase backend is caught during the
module import — initialization always completes and records availability —
and when the flag is false every request presenting a well-formed token fails
per-request with 500 while an anonymous request still proceeds. -/
theorem C3_degraded_not_fatal :
    ∀ (env : FirebaseInitEnv) (v : String → VerifyResult) (token : String),
      firebase_module_init env = .ok (env.import_ok && env.init_ok) ∧
      ((env.import_ok && env.init_ok) = false →
        (token == "") = false →
        (split_char '.' (py_strip token).data).length = 3 →
        statusOf
            (get_user_id_optional (env.import_ok && env.init_ok) v (some token)) =
          some 500) ∧
      get_user_id_optional (env.import_ok && env.init_ok) v none = .ok none := by
  intro env v token
  refine ⟨?_, ?_, rfl⟩
  · unfold firebase_module_init
    cases h1 : env.import_ok <;> cases h2 : env.init_ok <;> simp
  · intro hfb htok hlen
    rw [hfb]
    simp [get_user_id_optional, htok, hlen, statusOf]

/-- C3 (witness): a failed `initialize_app` leaves the module imported with the
flag false, and a well-formed token then gets a per-request 500. -/
theorem C3_degraded_not_fatal_witness :
    firebase_module_init ⟨true, false⟩ = .ok (true && false) ∧
    statusOf (get_user_id_optional (true && false) demo_verify (some "x.y.z")) =
      some 500 :=
  ⟨(C3_degraded_not_fatal ⟨true, false⟩ demo_verify "x.y.z").1,
   (C3_degraded_not_fatal ⟨true, false⟩ demo_verify "x.y.z").2.1 (by decide)
     (by decide) (by decide)⟩

/-- C7: the strict verifier is exactly the optional verifier followed by the
absent-identity-to-401 wrapper: errors pass through, an absent identity becomes
a 401, and a produced identity is returned unchanged. -/
theorem C7_required_wraps_optional :
    ∀ (fb : Bool) (v : String → VerifyResult) (c : Option String),
      get_user_id_required fb v c = verify_required_of (get_user_id_optional fb v c) := by
  intro fb v c
  unfold get_user_id_required verify_required_of
  rcases hopt : get_user_id_optional fb v c with e | u
  · rfl
  · rcases u with _ | s
    · rfl
    · have hs : ¬s = "" := by
        intro hse
        subst hse
        exact get_user_id_optional_ne_empty fb v c hopt
      simp [truthy, hs]

/-- C4: both listing endpoints reject an anonymous request with 401, and for an
authenticated caller the returned collections contain only data owned by that
caller: each listed strategy has the caller as owner, and each listed thread
entry is built from a stored strategy owned by the caller. -/
theorem C4_listing_requires_auth_and_scopes :
    ∀ (store : List Strategy) (fb : Bool) (v : String → VerifyResult) (uid : String),
      statusOf (get_strategies_endpoint store fb v none) = some 401 ∧
      statusOf (get_threads_endpoint store fb v none) = some 401 ∧
      (∀ s ∈ get_strategies store uid, s.owner_id = some uid) ∧
      (∀ e ∈ get_threads store uid,
        ∃ s ∈ store, s.owner_id = some uid ∧ s.thread_id = some e.thread_id ∧
          e = thread_info e.thread_id s) := by
  intro store fb v uid
  refine ⟨rfl, rfl, ?_, ?_⟩
  · intro s hs
    have hs' : s ∈ store.filter (fun t => t.owner_id == some uid) := hs
    exact eq_of_beq (List.mem_filter.1 hs').2
  · intro e he
    rcases get_threads_mem he with ⟨s, hs, h1, _, h3⟩
    have hs' : s ∈ store.filter (fun t => t.owner_id == some uid) := hs
    have hmem := List.mem_filter.1 hs'
    exact ⟨s, hmem.1, eq_of_beq hmem.2, h1, h3⟩

/-- C4 (witness): the anonymous listing is a 401, and strategy `a` listed for
`u1` in the demo store is owned by `u1`. -/
theorem C4_listing_witness :
    statusOf (get_strategies_endpoint demo_store true demo_verify none) = some 401 ∧
    (⟨"a", some "u1", some "t1", "A", "active", "c1", "2024-01-01"⟩ : Strategy).owner_id =
      some "u1" :=
  ⟨(C4_listing_requires_auth_and_scopes demo_store true demo_verify "u1").1,
   (C4_listing_requires_auth_and_scopes demo_store true demo_verify "u1").2.2.1
     ⟨"a", some "u1", some "t1", "A", "active", "c1", "2024-01-01"⟩ (by decide)⟩

/-- C10: the authenticated thread listing has pairwise-distinct thread ids;
every entry stems from an owned strategy with a non-empty thread id (strategies
without one are skipped); every entry carries the greatest `updated_at` among
the caller's strategies sharing its thread id; and the list is sorted by
`updated_at` in descending (string) order. -/
theorem C10_threads_dedup_and_sorted :
    ∀ (store : List Strategy) (uid : String),
      ((get_threads store uid).map (fun e => e.thread_id)).Nodup ∧
      (∀ e ∈ get_threads store uid,
        ∃ s ∈ get_by_owner_id store uid,
          s.thread_id = some e.thread_id ∧ e.thread_id ≠ "" ∧
            e = thread_info e.thread_id s) ∧
      (∀ e ∈ get_threads store uid, ∀ s ∈ get_by_owner_id store uid,
        s.thread_id = some e.thread_id →
          py_str_lt e.updated_at s.updated_at = false) ∧
      (get_threads store uid).Pairwise
        (fun a b => py_str_lt a.updated_at b.updated_at = false) :=
  fun store uid =>
    ⟨get_threads_nodup store uid,
     fun _ he => get_threads_mem he,
     fun _ he => get_threads_max he,
     get_threads_sorted store uid⟩

/-- C10 (witness): in the demo store, thread `t1` is listed once, via the
strategy with the greater `updated_at`, and it is not older than the superseded
strategy `a`. -/
theorem C10_threads_witness :
    (⟨"t1", "b", "B", "active", "c2", "2024-02-01"⟩ : ThreadResponse) ∈
        get_threads demo_store "u1" ∧
    py_str_lt
        (⟨"t1", "b", "B", "active", "c2", "2024-02-01"⟩ : ThreadResponse).updated_at
        "2024-01-01" =
      false :=
  ⟨by decide,
   (C10_threads_dedup_and_sorted demo_store "u1").2.2.1
     ⟨"t1", "b", "B", "active", "c2", "2024-02-01"⟩ (by decide)
     ⟨"a", some "u1", some "t1", "A", "active", "c1", "2024-01-01"⟩ (by decide)
     (by decide)⟩

end VibeTrade
